import Mathlib

/-!
Shallow embedding of the arroyo SQL-to-dataflow compiler front end
(arroyo-sql/src/lib.rs) and of the MQTT connector's option handling
(arroyo-connectors/src/mqtt.rs), together with theorems settling the
frozen claims about the natural-language specification.

Rust HashMaps are modelled as association lists whose insert replaces the
first entry with the same key (and otherwise appends), lookup returns the
first entry with the key, and remove deletes it.  Fallible Rust functions
returning anyhow::Result are modelled with Except over a typed error
enumeration mirroring the spec's error taxonomy; a panic (todo!) is
modelled as the distinguished error todoUnimplemented.
-/

namespace Arroyo

/-- Lookup of the first entry with the given key in an association list,
modelling HashMap::get. -/
def alLookup {α : Type} (m : List (String × α)) (k : String) : Option α :=
  match m with
  | [] => none
  | (k', v) :: rest => if k' = k then some v else alLookup rest k

/-- Insert modelling HashMap::insert's mutation: replaces the first entry
with the same key, otherwise appends at the end. -/
def alInsert {α : Type} (m : List (String × α)) (k : String) (v : α) : List (String × α) :=
  match m with
  | [] => [(k, v)]
  | (k', v') :: rest =>
    if k' = k then (k, v) :: rest else (k', v') :: alInsert rest k v

/-- Insert that also returns the previously present value, modelling the
return value of HashMap::insert. -/
def alInsertRet {α : Type} (m : List (String × α)) (k : String) (v : α) :
    Option α × List (String × α) :=
  match m with
  | [] => (none, [(k, v)])
  | (k', v') :: rest =>
    if k' = k then (some v', (k, v) :: rest)
    else
      let (old, rest') := alInsertRet rest k v
      (old, (k', v') :: rest')

/-- Arrow DataType, restricted to the kinds the embedded code constructs.
The list constructor inlines the single arrow Field it carries (name,
item type, nullability).  The constructor windowStruct is Modelled from
the spec: it stands for the return type built by window_arrow_struct
(schemas.rs, which is not under src/); the claims do not depend on its
internals, so it is kept opaque here. -/
inductive DataTypeM where
  | int32
  | int64
  | float32
  | float64
  | boolean
  | utf8
  | timestampMicrosecond
  | binary
  | intervalMonthDayNano
  | list (itemName : String) (itemType : DataTypeM) (itemNullable : Bool)
  | windowStruct
  deriving DecidableEq, Repr

/-- Volatility classification of a scalar function (datafusion_expr). -/
inductive Volatility where
  | immutable
  | stable
  | volatile
  deriving DecidableEq, Repr

/-- A registered scalar function, as built by datafusion's create_udf:
name, argument data types, return data type and volatility.  The array
implementation closure is irrelevant to the claims (every registration in
the source uses the same pass-through closure) and is omitted. -/
structure ScalarUDF where
  name : String
  argTypes : List DataTypeM
  returnType : DataTypeM
  volatility : Volatility
  deriving DecidableEq, Repr

/-- Embedding of datafusion's create_udf as used in the source. -/
def createUdf (name : String) (argTypes : List DataTypeM) (returnType : DataTypeM)
    (volatility : Volatility) : ScalarUDF :=
  { name := name, argTypes := argTypes, returnType := returnType, volatility := volatility }

/-- TypeDef (types.rs, not under src/).  Modelled from the spec: a scalar
primitive kind together with a nullability flag tracked independently of
the kind. -/
structure TypeDef where
  dataType : DataTypeM
  nullable : Bool
  deriving DecidableEq, Repr

/-- TypeDef::as_datatype, projecting the underlying arrow data type. -/
def TypeDef.asDatatype (t : TypeDef) : DataTypeM :=
  t.dataType

/-- Declared Rust types appearing in UDF signatures, as parsed by syn.
An Option wrapping expresses nullability; the unsupported constructor
stands for every declared type outside the supported set. -/
inductive RustType where
  | i32
  | i64
  | f32
  | f64
  | bool
  | string
  | systemTime
  | bytes
  | option (inner : RustType)
  | unsupported (text : String)
  deriving DecidableEq, Repr

/-- Modelled from the spec: the Type Model's conversion from declared
Rust parameter/return types into TypeDefs (TryFrom for syn::Type in
types.rs, which is not under src/).  The spec fixes the primitive kinds
(32/64-bit integer, 32/64-bit float, boolean, string, timestamp, byte
sequence) plus a nullability flag; an Option around a supported scalar
yields the nullable TypeDef, and every other type fails. -/
def rustTypeToTypeDef : RustType → Option TypeDef
  | .i32 => some ⟨.int32, false⟩
  | .i64 => some ⟨.int64, false⟩
  | .f32 => some ⟨.float32, false⟩
  | .f64 => some ⟨.float64, false⟩
  | .bool => some ⟨.boolean, false⟩
  | .string => some ⟨.utf8, false⟩
  | .systemTime => some ⟨.timestampMicrosecond, false⟩
  | .bytes => some ⟨.binary, false⟩
  | .option inner =>
    match rustTypeToTypeDef inner with
    | some ⟨dt, false⟩ => some ⟨dt, true⟩
    | _ => none
  | .unsupported _ => none

/-- SerializationMode (arroyo_datastream, external): an opaque tag. -/
structure SerializationMode where
  tag : String
  deriving DecidableEq, Repr

/-- ConnectorType from the source: Source or Sink. -/
inductive ConnectorType where
  | source
  | sink
  deriving DecidableEq, Repr

/-- StructField (types.rs, not under src/).  Modelled from the spec:
name, optional source alias, TypeDef. -/
structure StructField where
  name : String
  alias? : Option String
  typeDef : TypeDef
  deriving DecidableEq, Repr

/-- WriteOp of a datafusion DML statement. -/
inductive WriteOp where
  | insert
  | delete
  | update
  deriving DecidableEq, Repr

/-- Logical plans, restricted to the shapes the classification in
process_statement distinguishes, plus representative ordinary relational
shapes for the catch-all arm. -/
inductive LogicalPlan where
  | ddlCreateView (name : String) (input : LogicalPlan)
  | ddlCreateMemoryTable (name : String) (input : LogicalPlan)
  | dml (tableName : String) (op : WriteOp) (input : LogicalPlan)
  | projection (input : LogicalPlan)
  | filter (input : LogicalPlan)
  | tableScan (tableName : String)
  | values
  deriving DecidableEq, Repr

/-- ConnectorTable from the source (tables.rs shape as constructed in
lib.rs): identity, connector kind, fields, optional type name, operator
reference, config, description, serialization mode, and the optional
event-time/watermark field designations. -/
structure ConnectorTable where
  id : Option Int
  name : String
  connectorType : ConnectorType
  fields : List StructField
  typeName : Option String
  operator : String
  config : String
  description : String
  serializationMode : SerializationMode
  eventTimeField : Option String
  watermarkField : Option String
  deriving DecidableEq, Repr

/-- Table variants (tables.rs, constructed in lib.rs): a connector-backed
table, a named view with its defining plan, an insert into a named sink,
or an anonymous plan. -/
inductive Table where
  | connectorTable (ct : ConnectorTable)
  | tableFromQuery (name : String) (logicalPlan : LogicalPlan)
  | insertQuery (sinkName : String) (logicalPlan : LogicalPlan)
  | anonymous (logicalPlan : LogicalPlan)
  deriving DecidableEq, Repr

/-- Modelled from the spec: Table::name (tables.rs, not under src/).
Per the spec's data model, ConnectorTable and TableFromQuery are named;
InsertQuery is an unnamed statement writing into a named sink, and
Anonymous has no persisted name. -/
def Table.name : Table → Option String
  | .connectorTable ct => some ct.name
  | .tableFromQuery n _ => some n
  | .insertQuery _ _ => none
  | .anonymous _ => none

/-- A parsed function argument (syn::FnArg): either a method-style
receiver (self) or an ordinary typed argument. -/
inductive FnArg where
  | receiver
  | typed (ty : RustType)
  deriving DecidableEq, Repr

/-- A parsed function item (the parts of syn::ItemFn that the source
reads): visibility, name, arguments in declaration order, and the
declared return type (none for ReturnType::Default). -/
structure FnItem where
  isPublic : Bool
  name : String
  inputs : List FnArg
  output : Option RustType
  deriving DecidableEq, Repr

/-- A parsed top-level item (syn::Item): a function, or anything else. -/
inductive Item where
  | fn (f : FnItem)
  | notFn
  deriving DecidableEq, Repr

/-- UdfDef from the source: argument TypeDefs, return TypeDef, and the
stored definition (the function item with its visibility forced to
public, standing for the publicised token stream). -/
structure UdfDef where
  args : List TypeDef
  ret : TypeDef
  defn : FnItem
  deriving DecidableEq, Repr

/-- Typed error taxonomy: each constructor stands for one bail!/error
path of the embedded code (anyhow errors carry strings in Rust; the spec
names the same failures, and the mapping constructor-to-message is
one-to-one).  A todo! panic is modelled as todoUnimplemented. -/
inductive Err where
  | emptyQuery
  | syntaxError (msg : String)
  | planFailure (msg : String)
  | noSinkDefined
  | nameCollision (name : String)
  | invalidSelfParameter
  | unsupportedArgType (index : Nat)
  | missingReturnType
  | unsupportedReturnType
  | notAFunction
  | missingOption (key : String)
  | invalidOption (msg : String)
  | todoUnimplemented
  deriving DecidableEq, Repr

/-- The catalog, ArroyoSchemaProvider: source definitions, tables,
registered scalar functions, known connections (kept opaque as their
names), UDF definitions.  The datafusion config options field carries no
claim-relevant data and is omitted. -/
structure ArroyoSchemaProvider where
  sourceDefs : List (String × String)
  tables : List (String × Table)
  functions : List (String × ScalarUDF)
  connections : List (String × String)
  udfDefs : List (String × UdfDef)
  deriving DecidableEq, Repr

namespace ArroyoSchemaProvider

/-- ArroyoSchemaProvider::new: empty tables, functions seeded with the
built-in window constructors and JSON helpers, in source insertion
order. -/
def new : ArroyoSchemaProvider :=
  let functions : List (String × ScalarUDF) := []
  let functions := alInsert functions "hop"
    (createUdf "hop" [.intervalMonthDayNano, .intervalMonthDayNano] .windowStruct .volatile)
  let functions := alInsert functions "tumble"
    (createUdf "tumble" [.intervalMonthDayNano] .windowStruct .volatile)
  let functions := alInsert functions "get_first_json_object"
    (createUdf "get_first_json_object" [.utf8, .utf8] .utf8 .volatile)
  let functions := alInsert functions "get_json_objects"
    (createUdf "get_json_objects" [.utf8, .utf8] (.list "item" .utf8 false) .volatile)
  let functions := alInsert functions "extract_json_string"
    (createUdf "extract_json_string" [.utf8, .utf8] .utf8 .volatile)
  { sourceDefs := []
    tables := []
    functions := functions
    connections := []
    udfDefs := [] }

/-- ArroyoSchemaProvider::add_connector_table: inserts a ConnectorTable
under the given name, with event-time and watermark fields set to None. -/
def addConnectorTable (p : ArroyoSchemaProvider) (id : Int) (name : String)
    (connectorType : ConnectorType) (fields : List StructField)
    (typeName : Option String) (operator : String) (config : String)
    (description : String) (serializationMode : SerializationMode) :
    ArroyoSchemaProvider :=
  { p with
    tables := alInsert p.tables name
      (.connectorTable
        { id := some id
          name := name
          connectorType := connectorType
          fields := fields
          typeName := typeName
          operator := operator
          config := config
          description := description
          serializationMode := serializationMode
          eventTimeField := none
          watermarkField := none }) }

/-- ArroyoSchemaProvider::insert_table: inserts only when the table has a
name. -/
def insertTable (p : ArroyoSchemaProvider) (table : Table) : ArroyoSchemaProvider :=
  match table.name with
  | some name => { p with tables := alInsert p.tables name table }
  | none => p

/-- ArroyoSchemaProvider::get_table. -/
def getTable (p : ArroyoSchemaProvider) (tableName : String) : Option Table :=
  alLookup p.tables tableName

/-- ContextProvider::get_function_meta for ArroyoSchemaProvider. -/
def getFunctionMeta (p : ArroyoSchemaProvider) (name : String) : Option ScalarUDF :=
  alLookup p.functions name

end ArroyoSchemaProvider

/-- The argument loop of add_rust_udf: each argument in declaration
order; a receiver fails immediately, a typed argument is converted via
the Type Model or fails with its index. -/
def convertArgs (i : Nat) : List FnArg → Except Err (List TypeDef)
  | [] => .ok []
  | .receiver :: _ => .error .invalidSelfParameter
  | .typed ty :: rest =>
    match rustTypeToTypeDef ty with
    | none => .error (.unsupportedArgType i)
    | some td =>
      match convertArgs (i + 1) rest with
      | .ok tds => .ok (td :: tds)
      | .error e => .error e

/-- The return-type conversion of add_rust_udf: a missing return type
fails, an unconvertible one fails. -/
def convertRet : Option RustType → Except Err TypeDef
  | none => .error .missingReturnType
  | some ty =>
    match rustTypeToTypeDef ty with
    | none => .error .unsupportedReturnType
    | some td => .ok td

namespace ArroyoSchemaProvider

/-- One iteration of add_rust_udf's item loop, acting on the mutable
catalog.  Signature checks first (no mutation), then the insertion into
functions (which replaces any previous entry and reports it), the
collision bail-out, and finally the udf_defs insertion for the publicised
function. -/
def addRustUdfItem (p : ArroyoSchemaProvider) (item : Item) :
    Except Err Unit × ArroyoSchemaProvider :=
  match item with
  | .notFn => (.error .notAFunction, p)
  | .fn f =>
    match convertArgs 0 f.inputs with
    | .error e => (.error e, p)
    | .ok args =>
      match convertRet f.output with
      | .error e => (.error e, p)
      | .ok ret =>
        let udf := createUdf f.name (args.map TypeDef.asDatatype) ret.asDatatype .volatile
        let (old, functions') := alInsertRet p.functions f.name udf
        let p := { p with functions := functions' }
        match old with
        | some _ => (.error (.nameCollision f.name), p)
        | none =>
          let f' := { f with isPublic := true }
          (.ok (),
            { p with udfDefs := alInsert p.udfDefs f.name ⟨args, ret, f'⟩ })

/-- ArroyoSchemaProvider::add_rust_udf over the items of an already
parsed source file (syn::parse_file is external to the embedded crate;
its result is the item list).  The loop stops at the first error; the
catalog state reached so far is kept, modelling the in-place mutation of
self. -/
def addRustUdf (p : ArroyoSchemaProvider) : List Item →
    Except Err Unit × ArroyoSchemaProvider
  | [] => (.ok (), p)
  | item :: rest =>
    match addRustUdfItem p item with
    | (.ok (), p') => addRustUdf p' rest
    | (.error e, p') => (.error e, p')

end ArroyoSchemaProvider

/-- A parsed SQL statement, at the only granularity process_statement
examines it: a CREATE TABLE (with or without a defining query), or any
other statement carried opaquely to the relational planner. -/
inductive Statement where
  | createTable (name : String) (queryPresent : Bool)
  | otherStatement (sql : String)
  deriving DecidableEq, Repr

/-- The naked CREATE TABLE pattern of process_statement: a CreateTable
whose query field is None. -/
def Statement.isNakedCreateTable : Statement → Bool
  | .createTable _ false => true
  | _ => false

/-- A Planner stands for the datafusion pipeline applied to one
statement in process_statement: sql_statement_to_plan followed by the
analyzer and optimizer passes (all external to the embedded crate).  It
reads the catalog, because SqlToRel resolves tables and functions
through it. -/
def Planner : Type :=
  ArroyoSchemaProvider → Statement → Except Err LogicalPlan

/-- SqlProgramBuilder::process_statement: a naked CREATE TABLE hits the
todo! path; every other statement is planned, analyzed and optimized by
the external pipeline, and the optimized plan is classified: CreateView
and CreateMemoryTable become TableFromQuery with the inner plan, a DML
Insert becomes InsertQuery with the inner plan, everything else becomes
Anonymous carrying the optimized plan itself. -/
def processStatement (planner : Planner) (p : ArroyoSchemaProvider)
    (stmt : Statement) : Except Err Table :=
  if stmt.isNakedCreateTable then .error .todoUnimplemented
  else
    match planner p stmt with
    | .error e => .error e
    | .ok optimizedPlan =>
      match optimizedPlan with
      | .ddlCreateView name input => .ok (.tableFromQuery name input)
      | .ddlCreateMemoryTable name input => .ok (.tableFromQuery name input)
      | .dml tableName .insert input => .ok (.insertQuery tableName input)
      | plan => .ok (.anonymous plan)

/-- SqlProgramBuilder::plan_query over the parsed statements (the
sqlparser call producing them is external): each statement is classified
in order; a named table is inserted into the catalog immediately, an
unnamed one is appended to the outputs. -/
def planQuery (planner : Planner) (p : ArroyoSchemaProvider) :
    List Statement → Except Err (List Table × ArroyoSchemaProvider)
  | [] => .ok ([], p)
  | stmt :: rest =>
    match processStatement planner p stmt with
    | .error e => .error e
    | .ok table =>
      match table.name with
      | some _ => planQuery planner (p.insertTable table) rest
      | none =>
        match planQuery planner p rest with
        | .error e => .error e
        | .ok (outputs, p') => .ok (table :: outputs, p')

/-- Ghost trace of plan_query: the classified tables of every statement
in source order, threading the catalog exactly as plan_query does
(insert_table is the identity on unnamed tables). -/
def classifiedSeq (planner : Planner) (p : ArroyoSchemaProvider) :
    List Statement → Except Err (List Table)
  | [] => .ok []
  | stmt :: rest =>
    match processStatement planner p stmt with
    | .error e => .error e
    | .ok table =>
      match classifiedSeq planner (p.insertTable table) rest with
      | .error e => .error e
      | .ok tables => .ok (table :: tables)

/-- Rust's char::is_whitespace: the Unicode White_Space property, listed
by code point. -/
def isRustWhitespace (c : Char) : Bool :=
  (0x9 ≤ c.val && c.val ≤ 0xD) || c.val = 0x20 || c.val = 0x85 || c.val = 0xA0 ||
    c.val = 0x1680 || (0x2000 ≤ c.val && c.val ≤ 0x200A) || c.val = 0x2028 ||
    c.val = 0x2029 || c.val = 0x202F || c.val = 0x205F || c.val = 0x3000

/-- Rust's str::trim over the character sequence of the query text:
leading and trailing whitespace removed. -/
def rustTrim (s : List Char) : List Char :=
  ((s.dropWhile isRustWhitespace).reverse.dropWhile isRustWhitespace).reverse

/-- The top-level entry point parse_and_get_program, up to the point
where it hands the query to the spawned synchronous compilation: a query
whose trimmed text is empty fails with EmptyQuery first; otherwise the
rest of the compilation (parsing included) runs on the query text.  The
rest is a parameter, so the EmptyQuery failure is provably independent of
whatever parsing would do. -/
def parseAndGetProgram {Program : Type}
    (rest : List Char → Except Err Program) (query : List Char) :
    Except Err Program :=
  if (rustTrim query).isEmpty then .error .emptyQuery else rest query

/-- Streaming operator nodes (pipeline.rs, not under src/).  Modelled
from the spec: Source and Sink terminal nodes plus the interior operator
kinds named in the pipeline-builder contract; only the Sink/non-Sink
distinction is consumed by the embedded code (the sink check of
parse_and_get_program_sync). -/
inductive SqlOperator where
  | source (name : String)
  | sink (name : String)
  | projection (name : String)
  | filter (name : String)
  | join (name : String)
  | aggregate (name : String)
  deriving DecidableEq, Repr

/-- The matches!(n, SqlOperator::Sink(..)) test of the sink check. -/
def SqlOperator.isSink : SqlOperator → Bool
  | .sink _ => true
  | _ => false

/-- parse_and_get_program_sync: plan the query into outputs and a
mutated catalog, lower the outputs into the pipeline builder's
output_nodes, fail with NoSinkDefined when no output node is a Sink,
otherwise assemble the program.  The lowering (SqlPipelineBuilder,
pipeline.rs) and the plan-graph assembly (get_program, plan_graph.rs)
are not under src/ and are Modelled from the spec as the abstract
parameters buildNodes and getProgram; the sink check itself is the
source's. -/
def parseAndGetProgramSync {Program : Type} (planner : Planner)
    (buildNodes : ArroyoSchemaProvider → List Table → List SqlOperator)
    (getProgram : List SqlOperator → ArroyoSchemaProvider → Except Err Program)
    (p : ArroyoSchemaProvider) (stmts : List Statement) : Except Err Program :=
  match planQuery planner p stmts with
  | .error e => .error e
  | .ok (outputs, p') =>
    let outputNodes := buildNodes p' outputs
    if outputNodes.any SqlOperator.isSink then getProgram outputNodes p'
    else .error .noSinkDefined

namespace Mqtt

/-- Quality-of-service levels of the MQTT table schema (typify-generated
from table.json). -/
inductive QualityOfService where
  | atMostOnce
  | atLeastOnce
  | exactlyOnce
  deriving DecidableEq, Repr

/-- TableType of the MQTT table: a source, or a sink with its retain
flag. -/
inductive TableType where
  | source
  | sink (retain : Bool)
  deriving DecidableEq, Repr

/-- MqttTable: topic, role, optional quality of service. -/
structure MqttTable where
  topic : String
  type_ : TableType
  qos : Option QualityOfService
  deriving DecidableEq, Repr

/-- The user-supplied option map, as a key/value list. -/
abbrev Options : Type :=
  List (String × String)

/-- HashMap::remove on the option map: the removed value, if present,
and the map without that entry. -/
def removeOpt (opts : Options) (key : String) : Option String × Options :=
  match opts with
  | [] => (none, [])
  | (k, v) :: rest =>
    if k = key then (some v, rest)
    else
      let (found, rest') := removeOpt rest key
      (found, (k, v) :: rest')

/-- Modelled from the spec: pull_opt (crate root of arroyo-connectors,
not under src/), which removes a required option from the map and fails
when it is absent — the spec's table descriptor requires the topic and
role options. -/
def pullOpt (key : String) (opts : Options) : Except Err (String × Options) :=
  match removeOpt opts key with
  | (none, _) => .error (.missingOption key)
  | (some v, rest) => .ok (v, rest)

/-- Rust's str::parse for bool: exactly the strings true and false. -/
def parseRustBool (s : String) : Option Bool :=
  if s = "true" then some true
  else if s = "false" then some false
  else none

/-- MqttConnector::table_from_options.  The conversion of a qos string
into a QualityOfService (a typify-generated TryFrom, not under src/) is
the abstract parameter qosParse.  Removal order follows the source:
type, then qos, then (in the sink arm only) sink.retain, then topic. -/
def tableFromOptions (qosParse : String → Option QualityOfService)
    (opts : Options) : Except Err (MqttTable × Options) :=
  match pullOpt "type" opts with
  | .error e => .error e
  | .ok (typ, opts) =>
    let (qosRaw, opts) := removeOpt opts "qos"
    let qosResult : Except Err (Option QualityOfService) :=
      match qosRaw with
      | none => .ok none
      | some s =>
        match qosParse s with
        | some q => .ok (some q)
        | none => .error (.invalidOption ("invalid value for qos: " ++ s))
    match qosResult with
    | .error e => .error e
    | .ok qos =>
      let tableTypeResult : Except Err (TableType × Options) :=
        if typ = "source" then .ok (.source, opts)
        else if typ = "sink" then
          let (retainRaw, opts) := removeOpt opts "sink.retain"
          match retainRaw with
          | none => .ok (.sink false, opts)
          | some s =>
            match parseRustBool s with
            | some b => .ok (.sink b, opts)
            | none => .error (.invalidOption "sink.retain must be either true or false")
        else .error (.invalidOption "type must be one of source or sink")
      match tableTypeResult with
      | .error e => .error e
      | .ok (tableType, opts) =>
        match pullOpt "topic" opts with
        | .error e => .error e
        | .ok (topic, opts) =>
          .ok ({ topic := topic, type_ := tableType, qos := qos }, opts)

end Mqtt

/-! Helper lemmas about the map model and the embedded operations. -/

theorem alLookup_alInsert_self {α : Type} (m : List (String × α)) (k : String) (v : α) :
    alLookup (alInsert m k v) k = some v := by
  induction m with
  | nil => simp [alInsert, alLookup]
  | cons hd tl ih =>
    obtain ⟨k', v'⟩ := hd
    by_cases h : k' = k
    · simp [alInsert, alLookup, h]
    · simp [alInsert, alLookup, h, ih]

theorem alInsertRet_of_lookup_some {α : Type} (m : List (String × α)) (k : String)
    (v u : α) (h : alLookup m k = some v) :
    alInsertRet m k u = (some v, alInsert m k u) := by
  induction m with
  | nil => simp [alLookup] at h
  | cons hd tl ih =>
    obtain ⟨k', v'⟩ := hd
    by_cases hk : k' = k
    · simp [alLookup, hk] at h
      simp [alInsertRet, alInsert, hk, h]
    · simp [alLookup, hk] at h
      simp [alInsertRet, alInsert, hk, ih h]

theorem insertTable_unnamed (p : ArroyoSchemaProvider) (t : Table)
    (h : t.name = none) : p.insertTable t = p := by
  simp [ArroyoSchemaProvider.insertTable, h]

theorem rustTrim_all_whitespace (s : List Char)
    (h : ∀ c ∈ s, isRustWhitespace c = true) : rustTrim s = [] := by
  have h1 : s.dropWhile isRustWhitespace = [] :=
    List.dropWhile_eq_nil_iff.mpr h
  simp [rustTrim, h1]

/-- An argument list whose entries are all convertible typed arguments
converts successfully. -/
theorem convertArgs_ok (i : Nat) (l : List FnArg)
    (h : ∀ a ∈ l, ∃ ty, a = FnArg.typed ty ∧ (rustTypeToTypeDef ty).isSome = true) :
    ∃ tds, convertArgs i l = .ok tds := by
  induction l generalizing i with
  | nil => exact ⟨[], rfl⟩
  | cons a rest ih =>
    obtain ⟨ty, rfl, hsome⟩ := h a (List.mem_cons_self _ _)
    obtain ⟨td, htd⟩ := Option.isSome_iff_exists.mp hsome
    obtain ⟨tds, htds⟩ := ih (i + 1) (fun a ha => h a (List.mem_cons_of_mem _ ha))
    exact ⟨td :: tds, by simp [convertArgs, htd, htds]⟩

/-- A receiver argument preceded only by convertible typed arguments
makes the argument loop fail with the self-parameter error. -/
theorem convertArgs_receiver (i : Nat) (pre rest : List FnArg)
    (h : ∀ a ∈ pre, ∃ ty, a = FnArg.typed ty ∧ (rustTypeToTypeDef ty).isSome = true) :
    convertArgs i (pre ++ FnArg.receiver :: rest) = .error .invalidSelfParameter := by
  induction pre generalizing i with
  | nil => rfl
  | cons a pre' ih =>
    obtain ⟨ty, rfl, hsome⟩ := h a (List.mem_cons_self _ _)
    obtain ⟨td, htd⟩ := Option.isSome_iff_exists.mp hsome
    have := ih (i + 1) (fun a ha => h a (List.mem_cons_of_mem _ ha))
    simp [convertArgs, htd, this]

/-- An unconvertible typed argument preceded only by convertible typed
arguments makes the argument loop fail with that argument's index. -/
theorem convertArgs_badArg (i : Nat) (pre : List FnArg) (ty : RustType) (rest : List FnArg)
    (hbad : rustTypeToTypeDef ty = none)
    (h : ∀ a ∈ pre, ∃ ty2, a = FnArg.typed ty2 ∧ (rustTypeToTypeDef ty2).isSome = true) :
    convertArgs i (pre ++ FnArg.typed ty :: rest) = .error (.unsupportedArgType (i + pre.length)) := by
  induction pre generalizing i with
  | nil => simp [convertArgs, hbad]
  | cons a pre' ih =>
    obtain ⟨ty2, rfl, hsome⟩ := h a (List.mem_cons_self _ _)
    obtain ⟨td, htd⟩ := Option.isSome_iff_exists.mp hsome
    have := ih (i + 1) (fun a ha => h a (List.mem_cons_of_mem _ ha))
    simp [convertArgs, htd, this]
    omega

/-- A batch whose prefix registers successfully continues from the
mutated catalog, modelling the in-place item loop. -/
theorem addRustUdf_append_ok (p p' : ArroyoSchemaProvider) (l1 l2 : List Item)
    (h : p.addRustUdf l1 = (.ok (), p')) :
    p.addRustUdf (l1 ++ l2) = p'.addRustUdf l2 := by
  induction l1 generalizing p with
  | nil =>
    simp [ArroyoSchemaProvider.addRustUdf] at h
    simp [h]
  | cons item rest ih =>
    rw [ArroyoSchemaProvider.addRustUdf] at h
    rw [List.cons_append, ArroyoSchemaProvider.addRustUdf]
    cases hit : p.addRustUdfItem item with
    | mk res q =>
      rw [hit] at h
      cases res with
      | ok u =>
        cases u
        exact ih q h
      | error e => simp at h

/-- The value removeOpt reports is the first-occurrence lookup. -/
theorem removeOpt_fst (opts : Mqtt.Options) (k : String) :
    (Mqtt.removeOpt opts k).1 = alLookup opts k := by
  induction opts with
  | nil => rfl
  | cons hd tl ih =>
    obtain ⟨k', v⟩ := hd
    by_cases h : k' = k
    · simp [Mqtt.removeOpt, alLookup, h]
    · simp [Mqtt.removeOpt, alLookup, h, ih]

/-- Removing one key leaves lookups of a different key unchanged. -/
theorem alLookup_removeOpt_of_ne (opts : Mqtt.Options) (k k' : String) (h : k ≠ k') :
    alLookup (Mqtt.removeOpt opts k').2 k = alLookup opts k := by
  induction opts with
  | nil => rfl
  | cons hd tl ih =>
    obtain ⟨k0, v⟩ := hd
    by_cases h0 : k0 = k'
    · subst h0
      simp [Mqtt.removeOpt, alLookup, Ne.symm h]
    · by_cases h1 : k0 = k
      · subst h1
        simp [Mqtt.removeOpt, alLookup, h0]
      · simp [Mqtt.removeOpt, alLookup, h0, h1, ih]

/-! Claim theorems. -/

/-- C1: for every successfully parsed, analyzed and optimized statement,
process_statement classifies the optimized plan: CREATE VIEW and CREATE
TABLE AS yield TableFromQuery with the name and inner plan, INSERT INTO
yields InsertQuery with the sink name and inner plan, and every other
plan yields Anonymous carrying the optimized plan. -/
theorem c1_process_statement_classification
    (planner : Planner) (p : ArroyoSchemaProvider) (stmt : Statement)
    (plan : LogicalPlan)
    (hstmt : stmt.isNakedCreateTable = false)
    (hplan : planner p stmt = .ok plan) :
    (∀ n i, (plan = .ddlCreateView n i ∨ plan = .ddlCreateMemoryTable n i) →
      processStatement planner p stmt = .ok (.tableFromQuery n i)) ∧
    (∀ n i, plan = .dml n .insert i →
      processStatement planner p stmt = .ok (.insertQuery n i)) ∧
    ((∀ n i, plan ≠ .ddlCreateView n i ∧ plan ≠ .ddlCreateMemoryTable n i ∧
        plan ≠ .dml n .insert i) →
      processStatement planner p stmt = .ok (.anonymous plan)) := by
  have hps : processStatement planner p stmt =
      match plan with
      | .ddlCreateView name input => .ok (.tableFromQuery name input)
      | .ddlCreateMemoryTable name input => .ok (.tableFromQuery name input)
      | .dml tableName .insert input => .ok (.insertQuery tableName input)
      | plan => .ok (.anonymous plan) := by
    unfold processStatement
    rw [hstmt]
    simp only [Bool.false_eq_true, if_false, hplan]
    cases plan with
    | ddlCreateView n i => rfl
    | ddlCreateMemoryTable n i => rfl
    | dml n op i => cases op <;> rfl
    | projection i => rfl
    | filter i => rfl
    | tableScan n => rfl
    | values => rfl
  refine ⟨?_, ?_, ?_⟩
  · rintro n i (rfl | rfl) <;> simpa using hps
  · rintro n i rfl
    simpa using hps
  · intro hother
    cases plan with
    | ddlCreateView n i => exact absurd rfl (hother n i).1
    | ddlCreateMemoryTable n i => exact absurd rfl (hother n i).2.1
    | dml n op i =>
      cases op with
      | insert => exact absurd rfl (hother n i).2.2
      | delete => simpa using hps
      | update => simpa using hps
    | projection i => simpa using hps
    | filter i => simpa using hps
    | tableScan n => simpa using hps
    | values => simpa using hps

/-- Witness for C1 at a concrete planner result: a CREATE VIEW plan is
classified as TableFromQuery. -/
theorem c1_witness :
    processStatement (fun _ _ => .ok (.ddlCreateView "v" (.tableScan "t")))
      ArroyoSchemaProvider.new (.otherStatement "create view v") =
      .ok (.tableFromQuery "v" (.tableScan "t")) :=
  (c1_process_statement_classification
      (fun _ _ => .ok (.ddlCreateView "v" (.tableScan "t")))
      ArroyoSchemaProvider.new (.otherStatement "create view v")
      (.ddlCreateView "v" (.tableScan "t")) rfl rfl).1
    "v" (.tableScan "t") (Or.inl rfl)

/-- C3: a query whose text is empty or all whitespace fails with
EmptyQuery, for every possible continuation of the compilation, so no
parsing of the text can be involved in the failure. -/
theorem c3_empty_query {Program : Type}
    (rest : List Char → Except Err Program) (query : List Char)
    (h : ∀ c ∈ query, isRustWhitespace c = true) :
    parseAndGetProgram rest query = .error .emptyQuery := by
  simp [parseAndGetProgram, rustTrim_all_whitespace query h]

/-- Witness for C3 at a concrete whitespace-only query. -/
theorem c3_witness :
    parseAndGetProgram (fun _ => .ok ()) (" \t\n ".toList) = .error .emptyQuery :=
  c3_empty_query (fun _ => .ok ()) (" \t\n ".toList) (by decide)

/-- C4: when the pipeline builder's output nodes contain no Sink
operator, the synchronous compilation fails with NoSinkDefined instead
of producing a program. -/
theorem c4_no_sink_defined {Program : Type} (planner : Planner)
    (buildNodes : ArroyoSchemaProvider → List Table → List SqlOperator)
    (getProgram : List SqlOperator → ArroyoSchemaProvider → Except Err Program)
    (p p' : ArroyoSchemaProvider) (stmts : List Statement) (outputs : List Table)
    (hplan : planQuery planner p stmts = .ok (outputs, p'))
    (hnosink : (buildNodes p' outputs).any SqlOperator.isSink = false) :
    parseAndGetProgramSync planner buildNodes getProgram p stmts =
      .error .noSinkDefined := by
  simp [parseAndGetProgramSync, hplan, hnosink]

/-- Witness for C4: an empty batch with a builder producing no nodes. -/
theorem c4_witness :
    parseAndGetProgramSync (fun _ _ => .ok .values)
      (fun _ _ => []) (fun _ _ => (.ok () : Except Err Unit))
      ArroyoSchemaProvider.new [] =
      .error .noSinkDefined :=
  c4_no_sink_defined (fun _ _ => .ok .values) (fun _ _ => []) (fun _ _ => .ok ())
    ArroyoSchemaProvider.new ArroyoSchemaProvider.new [] [] rfl rfl

/-- C10: every ConnectorTable inserted through add_connector_table has
its event-time and watermark field designations set to None. -/
theorem c10_connector_table_no_event_time
    (p : ArroyoSchemaProvider) (id : Int) (name : String)
    (connectorType : ConnectorType) (fields : List StructField)
    (typeName : Option String) (operator : String) (config : String)
    (description : String) (serializationMode : SerializationMode) :
    ∃ ct : ConnectorTable,
      (p.addConnectorTable id name connectorType fields typeName operator
          config description serializationMode).getTable name =
        some (.connectorTable ct) ∧
      ct.eventTimeField = none ∧ ct.watermarkField = none := by
  refine ⟨⟨some id, name, connectorType, fields, typeName, operator, config,
    description, serializationMode, none, none⟩, ?_, rfl, rfl⟩
  simp [ArroyoSchemaProvider.addConnectorTable, ArroyoSchemaProvider.getTable,
    alLookup_alInsert_self]

/-- C7: a freshly constructed catalog has an empty table map; its
function map holds exactly the five built-in scalar functions, with the
argument and return types the source registers, and get_function_meta
returns none for every other name. -/
theorem c7_new_provider_builtins :
    ArroyoSchemaProvider.new.tables = [] ∧
    ArroyoSchemaProvider.new.getFunctionMeta "tumble" =
      some (createUdf "tumble" [.intervalMonthDayNano] .windowStruct .volatile) ∧
    ArroyoSchemaProvider.new.getFunctionMeta "hop" =
      some (createUdf "hop" [.intervalMonthDayNano, .intervalMonthDayNano]
        .windowStruct .volatile) ∧
    ArroyoSchemaProvider.new.getFunctionMeta "get_first_json_object" =
      some (createUdf "get_first_json_object" [.utf8, .utf8] .utf8 .volatile) ∧
    ArroyoSchemaProvider.new.getFunctionMeta "get_json_objects" =
      some (createUdf "get_json_objects" [.utf8, .utf8]
        (.list "item" .utf8 false) .volatile) ∧
    ArroyoSchemaProvider.new.getFunctionMeta "extract_json_string" =
      some (createUdf "extract_json_string" [.utf8, .utf8] .utf8 .volatile) ∧
    ∀ name, (ArroyoSchemaProvider.new.getFunctionMeta name).isSome = true →
      name = "tumble" ∨ name = "hop" ∨ name = "get_first_json_object" ∨
        name = "get_json_objects" ∨ name = "extract_json_string" := by
  refine ⟨rfl, rfl, rfl, rfl, rfl, rfl, ?_⟩
  intro name h
  simp only [ArroyoSchemaProvider.getFunctionMeta, ArroyoSchemaProvider.new,
    alInsert, alLookup] at h
  split_ifs at h with h1 h2 h3 h4 h5
  · exact Or.inr (Or.inl h1.symm)
  · exact Or.inl h2.symm
  · exact Or.inr (Or.inr (Or.inl h3.symm))
  · exact Or.inr (Or.inr (Or.inr (Or.inl h4.symm)))
  · exact Or.inr (Or.inr (Or.inr (Or.inr h5.symm)))
  · simp at h

/-- Witness for C7: a name that is none of the built-ins has a lookup,
so it must be one of the five (vacuously refuted by the disjunction at a
built-in name). -/
theorem c7_witness :
    "tumble" = "tumble" ∨ "tumble" = "hop" ∨ "tumble" = "get_first_json_object" ∨
      "tumble" = "get_json_objects" ∨ "tumble" = "extract_json_string" :=
  c7_new_provider_builtins.2.2.2.2.2.2 "tumble" (by decide)

/-- C2: whenever a batch of statements classifies (in source order) to a
trace of tables, plan_query returns exactly the unnamed tables of the
trace, in order, as outputs, and the final catalog is the initial one
with every classified table inserted in order — where inserting an
unnamed table is the identity, so only named tables ever enter the
catalog, and each named table is in place before the next statement is
planned (the trace itself threads the insertion). -/
theorem c2_plan_query_outputs_and_catalog
    (planner : Planner) (p : ArroyoSchemaProvider) (stmts : List Statement)
    (tables : List Table)
    (h : classifiedSeq planner p stmts = .ok tables) :
    planQuery planner p stmts =
      .ok (tables.filter (fun t => t.name.isNone),
        tables.foldl ArroyoSchemaProvider.insertTable p) ∧
    (∀ (q : ArroyoSchemaProvider) (t : Table), t.name = none → q.insertTable t = q) ∧
    (∀ t ∈ tables.filter (fun t => t.name.isNone), t.name = none) := by
  refine ⟨?_, fun q t ht => insertTable_unnamed q t ht, ?_⟩
  · induction stmts generalizing p tables with
    | nil =>
      simp [classifiedSeq] at h
      subst h
      rfl
    | cons stmt rest ih =>
      rw [classifiedSeq] at h
      cases hps : processStatement planner p stmt with
      | error e =>
        rw [hps] at h
        exact absurd h (by simp)
      | ok table =>
        rw [hps] at h
        dsimp only at h
        cases hcs : classifiedSeq planner (p.insertTable table) rest with
        | error e =>
          rw [hcs] at h
          exact absurd h (by simp)
        | ok ts =>
          rw [hcs] at h
          injection h with h
          subst h
          have ihq := ih (p.insertTable table) ts hcs
          rw [planQuery, hps]
          cases hname : table.name with
          | some n =>
            have hf : (Table.name table).isNone = false := by rw [hname]; rfl
            simp only [hname, List.filter_cons, hf, Bool.false_eq_true, if_false,
              List.foldl_cons]
            exact ihq
          | none =>
            have hpp : p.insertTable table = p := insertTable_unnamed p table hname
            rw [hpp] at ihq
            have hf : (Table.name table).isNone = true := by rw [hname]; rfl
            simp [hname, ihq, hpp]
  · intro t ht
    have := List.of_mem_filter ht
    exact Option.isNone_iff_eq_none.mp (by simpa using this)

/-- Witness for C2: a CREATE VIEW followed by a bare SELECT leaves the
view in the catalog and returns the anonymous plan as the only output. -/
theorem c2_witness :
    planQuery
      (fun _ s =>
        match s with
        | .otherStatement "create view v" =>
          Except.ok (.ddlCreateView "v" (.tableScan "t"))
        | _ => Except.ok (.projection (.tableScan "v")))
      ArroyoSchemaProvider.new
      [.otherStatement "create view v", .otherStatement "select"] =
      .ok ([.anonymous (.projection (.tableScan "v"))],
        { ArroyoSchemaProvider.new with
            tables := [("v", .tableFromQuery "v" (.tableScan "t"))] }) :=
  (c2_plan_query_outputs_and_catalog
    (fun _ s =>
      match s with
      | .otherStatement "create view v" =>
        Except.ok (.ddlCreateView "v" (.tableScan "t"))
      | _ => Except.ok (.projection (.tableScan "v")))
    ArroyoSchemaProvider.new
    [.otherStatement "create view v", .otherStatement "select"]
    [.tableFromQuery "v" (.tableScan "t"),
      .anonymous (.projection (.tableScan "v"))]
    rfl).1

/-- C5 (code bug evaluation): registering a UDF named tumble on a fresh
catalog does fail with the name-collision error, but contrary to the
claim the built-in registration is not left in place — the functions map
now returns the user function for tumble, which differs from the
built-in. -/
theorem c5_collision_replaces_builtin :
    (ArroyoSchemaProvider.new.addRustUdf
        [.fn ⟨false, "tumble", [.typed .i64], some .i64⟩]).1 =
      .error (.nameCollision "tumble") ∧
    (ArroyoSchemaProvider.new.addRustUdf
        [.fn ⟨false, "tumble", [.typed .i64], some .i64⟩]).2.getFunctionMeta
        "tumble" =
      some (createUdf "tumble" [.int64] .int64 .volatile) ∧
    createUdf "tumble" [.int64] .int64 .volatile ≠
      createUdf "tumble" [.intervalMonthDayNano] .windowStruct .volatile :=
  ⟨rfl, rfl, by decide⟩

/-- C6: per function, the argument list is checked first, in declaration
order — a receiver fails with the self-parameter error, an unmappable
parameter type fails with the unsupported-type error at its index — then
the return type: absent fails with the missing-return-type error,
unmappable with the unsupported-type error; and any parameter failure
decides the result before the return type is even looked at. -/
theorem c6_udf_signature_checks (p : ArroyoSchemaProvider) (f : FnItem) :
    (∀ pre rest, f.inputs = pre ++ FnArg.receiver :: rest →
      (∀ a ∈ pre, ∃ ty, a = FnArg.typed ty ∧ (rustTypeToTypeDef ty).isSome = true) →
      (p.addRustUdf [.fn f]).1 = .error .invalidSelfParameter) ∧
    (∀ pre ty rest, f.inputs = pre ++ FnArg.typed ty :: rest →
      rustTypeToTypeDef ty = none →
      (∀ a ∈ pre, ∃ ty2, a = FnArg.typed ty2 ∧ (rustTypeToTypeDef ty2).isSome = true) →
      (p.addRustUdf [.fn f]).1 = .error (.unsupportedArgType pre.length)) ∧
    ((∀ a ∈ f.inputs, ∃ ty, a = FnArg.typed ty ∧ (rustTypeToTypeDef ty).isSome = true) →
      f.output = none →
      (p.addRustUdf [.fn f]).1 = .error .missingReturnType) ∧
    (∀ ty, (∀ a ∈ f.inputs, ∃ ty2, a = FnArg.typed ty2 ∧
        (rustTypeToTypeDef ty2).isSome = true) →
      f.output = some ty → rustTypeToTypeDef ty = none →
      (p.addRustUdf [.fn f]).1 = .error .unsupportedReturnType) ∧
    (∀ e, convertArgs 0 f.inputs = .error e →
      (p.addRustUdf [.fn f]).1 = .error e ∧
      (e = .invalidSelfParameter ∨ ∃ k, e = .unsupportedArgType k)) := by
  have hargErr : ∀ e, convertArgs 0 f.inputs = .error e →
      (p.addRustUdf [.fn f]).1 = .error e := by
    intro e he
    simp [ArroyoSchemaProvider.addRustUdf, ArroyoSchemaProvider.addRustUdfItem, he]
  have hargKinds : ∀ (i : Nat) (l : List FnArg) (e : Err), convertArgs i l = .error e →
      e = .invalidSelfParameter ∨ ∃ k, e = .unsupportedArgType k := by
    intro i l
    induction l generalizing i with
    | nil => intro e he; simp [convertArgs] at he
    | cons a rest ih =>
      intro e he
      cases a with
      | receiver =>
        simp [convertArgs] at he
        exact Or.inl he.symm
      | typed ty =>
        rw [convertArgs] at he
        cases hty : rustTypeToTypeDef ty with
        | none =>
          rw [hty] at he
          simp at he
          exact Or.inr ⟨i, he.symm⟩
        | some td =>
          rw [hty] at he
          cases hrest : convertArgs (i + 1) rest with
          | ok tds => rw [hrest] at he; simp at he
          | error e' =>
            rw [hrest] at he
            simp at he
            exact he ▸ ih (i + 1) e' hrest
  refine ⟨?_, ?_, ?_, ?_, fun e he => ⟨hargErr e he, hargKinds 0 f.inputs e he⟩⟩
  · intro pre rest hsplit hpre
    exact hargErr _ (hsplit ▸ convertArgs_receiver 0 pre rest hpre)
  · intro pre ty rest hsplit hbad hpre
    have := convertArgs_badArg 0 pre ty rest hbad hpre
    rw [Nat.zero_add] at this
    exact hargErr _ (hsplit ▸ this)
  · intro hall hout
    obtain ⟨tds, htds⟩ := convertArgs_ok 0 f.inputs hall
    simp [ArroyoSchemaProvider.addRustUdf, ArroyoSchemaProvider.addRustUdfItem,
      htds, convertRet, hout]
  · intro ty hall hout hbad
    obtain ⟨tds, htds⟩ := convertArgs_ok 0 f.inputs hall
    simp [ArroyoSchemaProvider.addRustUdf, ArroyoSchemaProvider.addRustUdfItem,
      htds, convertRet, hout, hbad]

/-- Witness for C6: a single receiver parameter triggers the
self-parameter error. -/
theorem c6_witness :
    (ArroyoSchemaProvider.new.addRustUdf
        [.fn ⟨false, "bad", [.receiver], some .i64⟩]).1 =
      .error .invalidSelfParameter :=
  (c6_udf_signature_checks ArroyoSchemaProvider.new
      ⟨false, "bad", [.receiver], some .i64⟩).1
    [] [] rfl (by simp)

/-- C9: when a batch fails on a name collision after a prefix of
definitions has been processed successfully, the returned catalog keeps
every mutation made for the prefix, and the colliding name's functions
entry has already been replaced by the new function; only udf_defs is
left untouched for the failing definition. -/
theorem c9_registration_not_atomic
    (p p' : ArroyoSchemaProvider) (pre : List Item) (bad : FnItem)
    (rest : List Item) (args : List TypeDef) (ret : TypeDef) (old : ScalarUDF)
    (hpre : p.addRustUdf pre = (.ok (), p'))
    (hargs : convertArgs 0 bad.inputs = .ok args)
    (hret : convertRet bad.output = .ok ret)
    (hcollide : alLookup p'.functions bad.name = some old) :
    p.addRustUdf (pre ++ .fn bad :: rest) =
      (.error (.nameCollision bad.name),
        { p' with
            functions :=
              alInsert p'.functions bad.name
                (createUdf bad.name (args.map TypeDef.asDatatype)
                  ret.asDatatype .volatile) }) := by
  rw [addRustUdf_append_ok p p' pre (.fn bad :: rest) hpre]
  rw [ArroyoSchemaProvider.addRustUdf]
  have hins := alInsertRet_of_lookup_some p'.functions bad.name old
    (createUdf bad.name (args.map TypeDef.asDatatype) ret.asDatatype .volatile)
    hcollide
  simp [ArroyoSchemaProvider.addRustUdfItem, hargs, hret, hins]

/-- Witness for C9: a first UDF registers, a second collides with the
built-in tumble; the returned catalog keeps the first registration and
holds the new tumble entry. -/
theorem c9_witness :
    ArroyoSchemaProvider.new.addRustUdf
        [.fn ⟨false, "double_it", [.typed .i64], some .i64⟩,
          .fn ⟨false, "tumble", [], some .bool⟩] =
      (.error (.nameCollision "tumble"),
        { (ArroyoSchemaProvider.new.addRustUdf
              [.fn ⟨false, "double_it", [.typed .i64], some .i64⟩]).2 with
            functions :=
              alInsert
                (ArroyoSchemaProvider.new.addRustUdf
                  [.fn ⟨false, "double_it", [.typed .i64], some .i64⟩]).2.functions
                "tumble" (createUdf "tumble" [] .boolean .volatile) }) :=
  c9_registration_not_atomic ArroyoSchemaProvider.new
    (ArroyoSchemaProvider.new.addRustUdf
      [.fn ⟨false, "double_it", [.typed .i64], some .i64⟩]).2
    [.fn ⟨false, "double_it", [.typed .i64], some .i64⟩]
    ⟨false, "tumble", [], some .bool⟩ [] [] ⟨.boolean, false⟩
    (createUdf "tumble" [.intervalMonthDayNano] .windowStruct .volatile)
    rfl rfl rfl rfl

/-- C8: for every option map, the MQTT table builder fails when the type
option is absent, fails when the topic option is absent, fails on any
type value other than source and sink; and whenever it succeeds, a
source type yields the Source role while a sink type yields the Sink
role with retain parsed from the sink.retain option when present and
false otherwise. -/
theorem c8_mqtt_table_from_options
    (qosParse : String → Option Mqtt.QualityOfService) (opts : Mqtt.Options) :
    (alLookup opts "type" = none →
      Mqtt.tableFromOptions qosParse opts = .error (.missingOption "type")) ∧
    (alLookup opts "topic" = none →
      ∃ e, Mqtt.tableFromOptions qosParse opts = .error e) ∧
    (∀ v, alLookup opts "type" = some v → v ≠ "source" → v ≠ "sink" →
      ∃ e, Mqtt.tableFromOptions qosParse opts = .error e) ∧
    (∀ t restOpts, Mqtt.tableFromOptions qosParse opts = .ok (t, restOpts) →
      (alLookup opts "type" = some "source" → t.type_ = .source) ∧
      (alLookup opts "type" = some "sink" →
        (alLookup opts "sink.retain" = none → t.type_ = .sink false) ∧
        (∀ s, alLookup opts "sink.retain" = some s →
          ∃ b, Mqtt.parseRustBool s = some b ∧ t.type_ = .sink b))) := by
  unfold Mqtt.tableFromOptions Mqtt.pullOpt
  cases hr1 : Mqtt.removeOpt opts "type" with
  | mk v1 opts1 =>
    have hl1 : v1 = alLookup opts "type" := by rw [← removeOpt_fst, hr1]
    cases v1 with
    | none =>
      refine ⟨fun _ => ?_, fun _ => ⟨.missingOption "type", ?_⟩, ?_, ?_⟩
      · simp only [hr1]
      · simp only [hr1]
      · intro v hv _ _
        rw [← hl1] at hv
        exact absurd hv (by simp)
      · intro t restOpts hok
        simp only [hr1] at hok
        exact absurd hok (by simp)
    | some v =>
      have hlt1 : alLookup opts1 "topic" = alLookup opts "topic" := by
        have := alLookup_removeOpt_of_ne opts "topic" "type" (by decide)
        rw [hr1] at this
        exact this
      have hlr1 : alLookup opts1 "sink.retain" = alLookup opts "sink.retain" := by
        have := alLookup_removeOpt_of_ne opts "sink.retain" "type" (by decide)
        rw [hr1] at this
        exact this
      cases hr2 : Mqtt.removeOpt opts1 "qos" with
      | mk qosRaw opts2 =>
        have hlt2 : alLookup opts2 "topic" = alLookup opts "topic" := by
          have := alLookup_removeOpt_of_ne opts1 "topic" "qos" (by decide)
          rw [hr2] at this
          rw [this, hlt1]
        have hlr2 : alLookup opts2 "sink.retain" = alLookup opts "sink.retain" := by
          have := alLookup_removeOpt_of_ne opts1 "sink.retain" "qos" (by decide)
          rw [hr2] at this
          rw [this, hlr1]
        have hqosCase : (∃ e, (match qosRaw with
            | none => (Except.ok none : Except Err (Option Mqtt.QualityOfService))
            | some s =>
              match qosParse s with
              | some q => Except.ok (some q)
              | none => Except.error (.invalidOption ("invalid value for qos: " ++ s))) =
            Except.error e) ∨
            (∃ qv, (match qosRaw with
            | none => (Except.ok none : Except Err (Option Mqtt.QualityOfService))
            | some s =>
              match qosParse s with
              | some q => Except.ok (some q)
              | none => Except.error (.invalidOption ("invalid value for qos: " ++ s))) =
            Except.ok qv) := by
          cases qosRaw with
          | none => exact Or.inr ⟨none, rfl⟩
          | some s =>
            cases hp : qosParse s with
            | none =>
              exact Or.inl ⟨.invalidOption ("invalid value for qos: " ++ s),
                by simp [hp]⟩
            | some q => exact Or.inr ⟨some q, by simp [hp]⟩
        rcases hqosCase with ⟨e0, hqe⟩ | ⟨qv, hqv⟩
        · refine ⟨?_, fun _ => ⟨e0, ?_⟩, fun v' hv' _ _ => ⟨e0, ?_⟩, ?_⟩
          · intro habs
            rw [← hl1] at habs
            exact absurd habs (by simp)
          · simp only [hr1, hr2, hqe]
          · simp only [hr1, hr2, hqe]
          · intro t restOpts hok
            simp only [hr1, hr2, hqe] at hok
            exact absurd hok (by simp)
        · by_cases hvs : v = "source"
          · subst hvs
            cases hr3 : Mqtt.removeOpt opts2 "topic" with
            | mk topicRaw opts3 =>
              have hlt3 : topicRaw = alLookup opts "topic" := by
                rw [← hlt2, ← removeOpt_fst, hr3]
              refine ⟨?_, ?_, ?_, ?_⟩
              · intro habs
                rw [← hl1] at habs
                exact absurd habs (by simp)
              · intro htopic
                rw [htopic] at hlt3
                subst hlt3
                refine ⟨.missingOption "topic", ?_⟩
                simp only [hr1, hr2, hqv]
                simp only [if_true]
                simp only [hr3]
              · intro v' hv' hs _
                rw [← hl1] at hv'
                injection hv' with hv'
                exact absurd hv'.symm hs
              · intro t restOpts hok
                simp only [hr1, hr2, hqv] at hok
                simp only [if_true] at hok
                simp only [hr3] at hok
                cases topicRaw with
                | none => exact absurd hok (by simp)
                | some topic =>
                  simp only at hok
                  injection hok with hok
                  injection hok with hok1 hok2
                  constructor
                  · intro _
                    rw [← hok1]
                  · intro habs
                    rw [← hl1] at habs
                    exact absurd habs (by simp)
          · by_cases hvk : v = "sink"
            · subst hvk
              cases hr4 : Mqtt.removeOpt opts2 "sink.retain" with
              | mk retainRaw opts3 =>
                have hlr3 : retainRaw = alLookup opts "sink.retain" := by
                  rw [← hlr2, ← removeOpt_fst, hr4]
                have hlt4 : alLookup opts3 "topic" = alLookup opts "topic" := by
                  have := alLookup_removeOpt_of_ne opts2 "topic" "sink.retain" (by decide)
                  rw [hr4] at this
                  rw [this, hlt2]
                have hsinkRes : (∃ e, (match retainRaw with
                    | none => (Except.ok (Mqtt.TableType.sink false, opts3) :
                        Except Err (Mqtt.TableType × Mqtt.Options))
                    | some s =>
                      match Mqtt.parseRustBool s with
                      | some b => Except.ok (Mqtt.TableType.sink b, opts3)
                      | none => Except.error
                          (.invalidOption "sink.retain must be either true or false")) =
                    Except.error e) ∨
                    (∃ b, (match retainRaw with
                    | none => (Except.ok (Mqtt.TableType.sink false, opts3) :
                        Except Err (Mqtt.TableType × Mqtt.Options))
                    | some s =>
                      match Mqtt.parseRustBool s with
                      | some b => Except.ok (Mqtt.TableType.sink b, opts3)
                      | none => Except.error
                          (.invalidOption "sink.retain must be either true or false")) =
                    Except.ok (Mqtt.TableType.sink b, opts3) ∧
                    (retainRaw = none → b = false) ∧
                    (∀ s, retainRaw = some s → Mqtt.parseRustBool s = some b)) := by
                  cases retainRaw with
                  | none => exact Or.inr ⟨false, rfl, fun _ => rfl, fun s hs => by cases hs⟩
                  | some s =>
                    cases hb : Mqtt.parseRustBool s with
                    | none =>
                      exact Or.inl
                        ⟨.invalidOption "sink.retain must be either true or false",
                          by simp [hb]⟩
                    | some b =>
                      refine Or.inr ⟨b, by simp [hb], ?_, ?_⟩
                      · intro habs
                        cases habs
                      · intro s' hs'
                        injection hs' with hs'
                        rw [← hs', hb]
                rcases hsinkRes with ⟨e0, hse⟩ | ⟨b, hsb, hbnone, hbsome⟩
                · refine ⟨?_, fun _ => ⟨e0, ?_⟩, ?_, ?_⟩
                  · intro habs
                    rw [← hl1] at habs
                    exact absurd habs (by simp)
                  · simp only [hr1, hr2, hqv]
                    rw [if_neg hvs]
                    simp only [if_true, hr4, hse]
                  · intro v' hv' _ hk
                    rw [← hl1] at hv'
                    injection hv' with hv'
                    exact absurd hv'.symm hk
                  · intro t restOpts hok
                    simp only [hr1, hr2, hqv] at hok
                    rw [if_neg hvs] at hok
                    simp only [if_true, hr4, hse] at hok
                    exact absurd hok (by simp)
                · cases hr5 : Mqtt.removeOpt opts3 "topic" with
                  | mk topicRaw opts4 =>
                    have hlt5 : topicRaw = alLookup opts "topic" := by
                      rw [← hlt4, ← removeOpt_fst, hr5]
                    refine ⟨?_, ?_, ?_, ?_⟩
                    · intro habs
                      rw [← hl1] at habs
                      exact absurd habs (by simp)
                    · intro htopic
                      rw [htopic] at hlt5
                      subst hlt5
                      refine ⟨.missingOption "topic", ?_⟩
                      simp only [hr1, hr2, hqv]
                      rw [if_neg hvs]
                      simp only [if_true, hr4, hsb, hr5]
                    · intro v' hv' _ hk
                      rw [← hl1] at hv'
                      injection hv' with hv'
                      exact absurd hv'.symm hk
                    · intro t restOpts hok
                      simp only [hr1, hr2, hqv] at hok
                      rw [if_neg hvs] at hok
                      simp only [if_true, hr4, hsb, hr5] at hok
                      cases topicRaw with
                      | none => exact absurd hok (by simp)
                      | some topic =>
                        simp only at hok
                        injection hok with hok
                        injection hok with hok1 hok2
                        constructor
                        · intro habs
                          rw [← hl1] at habs
                          exact absurd habs (by simp)
                        · intro _
                          constructor
                          · intro hnone
                            rw [hnone] at hlr3
                            rw [← hok1]
                            rw [hbnone hlr3]
                          · intro s hs
                            rw [hs] at hlr3
                            exact ⟨b, hbsome s hlr3, by rw [← hok1]⟩
            · refine ⟨?_,
                fun _ => ⟨.invalidOption "type must be one of source or sink", ?_⟩,
                fun v' hv' _ _ => ⟨.invalidOption "type must be one of source or sink", ?_⟩,
                ?_⟩
              · intro habs
                rw [← hl1] at habs
                exact absurd habs (by simp)
              · simp only [hr1, hr2, hqv]
                rw [if_neg hvs, if_neg hvk]
              · simp only [hr1, hr2, hqv]
                rw [if_neg hvs, if_neg hvk]
              · intro t restOpts hok
                simp only [hr1, hr2, hqv] at hok
                rw [if_neg hvs, if_neg hvk] at hok
                exact absurd hok (by simp)

/-- Witness for C8 at a concrete sink option map with an explicit retain
flag. -/
theorem c8_witness :
    ∃ b, Mqtt.parseRustBool "true" = some b ∧
      Mqtt.TableType.sink true = Mqtt.TableType.sink b :=
  (((c8_mqtt_table_from_options (fun _ => none)
      [("type", "sink"), ("topic", "t"), ("sink.retain", "true")]).2.2.2
    ⟨"t", .sink true, none⟩ [] rfl).2 rfl).2 "true" rfl

end Arroyo
